import Mathlib

/-!
# Verification of the Dexie helper core (`src/plugins/dexie/dexie-helper.ts`)

Shallow embedding of the Dexie storage-adapter helper of RxDB:

* `dexieReplaceIfStartsWithPipe` — the identifier escaper;
* `getDexieStoreSchema` — the physical index-string compiler;
* `getDexieSortComparator` — the mingo-backed deterministic sort comparator;
* `getDexieDbWithTables` / `closeDexieDb` — the reference-counted connection
  registry, modelled as an explicit state machine;
* `getDocsInDb` / `stripDexieKey` — the two-table document merger.

JavaScript strings are Lean `String`s; JavaScript objects used as
insertion-ordered dictionaries are association lists; `Promise` values are
modelled by their settled outcome (a handle that either opened successfully
or rejected); `undefined`/`NaN` arithmetic of the reference counter is
modelled by an explicit `JsNum` type.
-/

namespace DexieHelper

/-! ## Identifier escaper -/

/-- Constant `DEXIE_PIPE_SUBSTITUTE` of the source: the fixed multi-character token that
replaces a leading pipe character. -/
def DEXIE_PIPE_SUBSTITUTE : String := "RxDBSubstPIPE"

/-- Function `dexieReplaceIfStartsWithPipe` of the source.  The TypeScript checks
`str.startsWith('|')` and, when it holds, returns
`DEXIE_PIPE_SUBSTITUTE + str.substring(1)`.  Starting with `'|'` is exactly
"the first character is `'|'`", and `substring(1)` is the remainder after that
first character, so we pattern-match on the character list of the string. -/
def dexieReplaceIfStartsWithPipe (str : String) : String :=
  match str.data with
  | c :: withoutFirst =>
    if c = '|' then DEXIE_PIPE_SUBSTITUTE ++ String.mk withoutFirst else str
  | [] => str

/-! ## Physical index-string compiler -/

/-- One entry of `RxJsonSchema.indexes`: either a single field name or a
compound index given as a list of field names. -/
inductive DexieIndex where
  | single (field : String)
  | compound (fields : List String)
deriving DecidableEq, Repr

/-- The line `const arIndex = Array.isArray(index) ? index : [index]` of the source:
normalize a declared index into a group of field names. -/
def normalizeIndex : DexieIndex → List String
  | .single field => [field]
  | .compound fields => fields

/-- The slice of `RxJsonSchema` that the helper reads.  Modelled from the spec:
`getPrimaryFieldOfPrimaryKey` (imported from `rx-schema`, outside this file)
resolves the schema's primary-key declaration to a concrete field path; we let
the schema carry that resolved field path directly. -/
structure DexieSchema where
  primaryKey : String
  indexes : Option (List DexieIndex)
deriving DecidableEq, Repr

/-- JavaScript `Array.prototype.join(sep)` on a list of strings. -/
def joinStrings (sep : String) : List String → String
  | [] => ""
  | [x] => x
  | x :: xs => x ++ sep ++ joinStrings sep xs

/-- Rendering of one escaped index group inside `getDexieStoreSchema`:
a group of length one renders as the bare name, any other group renders as a
bracketed `'+'`-joined token. -/
def renderDexiePart : List String → String
  | [x] => x
  | part => "[" ++ joinStrings "+" part ++ "]"

/-- Function `getDexieStoreSchema` of the source: the primary-key singleton group first,
then one group per declared index, every field escaped, each group rendered and
all groups joined with `", "`. -/
def getDexieStoreSchema (rxJsonSchema : DexieSchema) : String :=
  let parts : List (List String) :=
    [rxJsonSchema.primaryKey] ::
      ((rxJsonSchema.indexes.getD []).map normalizeIndex)
  let escaped := parts.map (fun part => part.map dexieReplaceIfStartsWithPipe)
  joinStrings ", " (escaped.map renderDexiePart)

/-! ## Sort comparator

`getDexieSortComparator` builds a JavaScript object `mingoSortObject`
(field name → `1`/`-1`) from the query's sort blocks, appends the primary key
ascending when absent, and then compares two documents `a`, `b` by running
`mingo.find([a, b], {}).sort(mingoSortObject)` and testing whether the first
element of the sorted result is (referentially) `a`.

mingo's `$sort` processes the sort keys from last to first; each pass groups
the collection by the key's resolved value (preserving input order inside a
group, i.e. stably), sorts the group keys with its value comparator, and for
direction `-1` reverses the order of the groups.  On a two-element collection
this is exactly: `a` stays first iff the in-order lexicographic comparison of
the two documents along the key/direction list is not `gt`.  Documents are
modelled as total maps from field names to integer field values (mingo's value
comparator restricted to one value type). -/

/-- A document: field name → field value. -/
def Doc : Type := String → Int

/-- mingo's value comparator (`a < b → -1, a > b → 1, else 0`) on `Int`,
as an `Ordering`. -/
def mingoValueCompare (x y : Int) : Ordering :=
  if x < y then .lt else if x = y then .eq else .gt

/-- A mango sort direction, `'asc' | 'desc'`. -/
inductive SortDirection where
  | asc
  | desc
deriving DecidableEq, Repr

/-- Function `sortDirectionToMingo` of the source. -/
def sortDirectionToMingo (direction : SortDirection) : Int :=
  if direction = .asc then 1 else -1

/-- One pass-direction-aware key comparison: direction `-1` reverses the
non-tie outcomes (mingo reverses the order of the value groups). -/
def mingoKeyCompare (dir : Int) (x y : Int) : Ordering :=
  if dir = -1 then (mingoValueCompare x y).swap else mingoValueCompare x y

/-- Lexicographic comparison of two documents along the insertion-ordered
key/direction list of `mingoSortObject`; this is what mingo's stable
last-key-first group sort computes on a two-element collection. -/
def mingoLexCompare : List (String × Int) → Doc → Doc → Ordering
  | [], _, _ => .eq
  | (key, dir) :: rest, a, b =>
    match mingoKeyCompare dir (a key) (b key) with
    | .eq => mingoLexCompare rest a b
    | o => o

/-- One sort block of a mango query: `Object.keys(sortBlock)[0]` paired with
`Object.values(sortBlock)[0]`. -/
def SortBlock : Type := String × SortDirection

/-- The assignment `mingoSortObject[key] = value` with JavaScript object
semantics: an existing key keeps its insertion position and gets the new
value, a new key is appended at the end. -/
def jsObjectSet : List (String × Int) → String → Int → List (String × Int)
  | [], key, value => [(key, value)]
  | p :: rest, key, value =>
    if p.1 = key then (key, value) :: rest
    else p :: jsObjectSet rest key value

/-- The `query.sort.forEach` loop of `getDexieSortComparator`, restricted to
the `mingoSortObject` local: each sort block writes its key/direction into the
object. -/
def buildSortObject (sort : List SortBlock) : List (String × Int) :=
  sort.foldl (fun obj sortBlock =>
    jsObjectSet obj sortBlock.1 (sortDirectionToMingo sortBlock.2)) []

/-- The `wasPrimaryInSort` local of the same loop: set when some sort block's
key is the primary key.  (The source computes both locals in one `forEach`;
the two accumulators do not interact, so they are split here.) -/
def wasPrimaryInSort (primaryKey : String) (sort : List SortBlock) : Bool :=
  sort.any (fun sortBlock => sortBlock.1 = primaryKey)

/-- The full `mingoSortObject` of `getDexieSortComparator`: the query's sort
blocks in order, then the primary key ascending when no block referenced it. -/
def mingoSortObject (primaryKey : String) (sort : Option (List SortBlock)) :
    List (String × Int) :=
  let obj := buildSortObject (sort.getD [])
  if wasPrimaryInSort primaryKey (sort.getD []) then obj
  else jsObjectSet obj primaryKey 1

/-- The comparator returned by `getDexieSortComparator`: sort `[a, b]` stably
by `mingoSortObject` and return `-1` when the first element of the result is
`a`, else `1`.  With the stable two-element sort, `a` is first exactly when
the lexicographic comparison is not `gt`. -/
def getDexieSortComparator (primaryKey : String)
    (sort : Option (List SortBlock)) (a b : Doc) : Int :=
  match mingoLexCompare (mingoSortObject primaryKey sort) a b with
  | .gt => 1
  | _ => -1

/-! ## Connection registry

`getDexieDbWithTables` keeps two module-level maps:
`DEXIE_STATE_DB_BY_NAME : Map<string, DexieStorageInternals>` (keyed by the
derived dexie database name) and
`REF_COUNT_PER_DEXIE_DB : Map<DexieStorageInternals, number>` (keyed by the
state promise object).  The promise is modelled by its settled outcome: a
`DexieHandle` carrying a unique identity (the sequence number of the physical
`dexieDb.open()` call that created it) and whether that open resolved or
rejected.  The reference counter is a JavaScript number, so it can hold `NaN`
(from `undefined - 1` when the map lookup misses); `JsNum` makes that
explicit. -/

/-- The settled outcome of a `DexieStorageInternals` promise: `openId` is the
sequence number of the `dexieDb.open()` call that this creation issued,
`openOk` tells whether that open resolved (`true`) or rejected (`false`). -/
structure DexieHandle where
  openId : Nat
  openOk : Bool
deriving DecidableEq, Repr

/-- A JavaScript number as used by the reference counter: an integer or
`NaN`. -/
inductive JsNum where
  | nan
  | num (n : Int)
deriving DecidableEq, Repr

/-- JavaScript `x - 1` where `x` came from `Map.get` (so may be `undefined`):
`undefined - 1` is `NaN`, `NaN - 1` is `NaN`. -/
def jsSubOne : Option JsNum → JsNum
  | none => .nan
  | some .nan => .nan
  | some (.num n) => .num (n - 1)

/-- JavaScript `x === 0` on a number; `NaN === 0` is `false`. -/
def jsEqZero : JsNum → Bool
  | .nan => false
  | .num n => n = 0

/-- The module-level mutable state of `dexie-helper.ts`, plus the two
observables the claims are about: how many physical `open()` calls were
issued and which connections got `close()` called on them. -/
structure RegistryState where
  /-- Map `DEXIE_STATE_DB_BY_NAME`. -/
  stateDbByName : List (String × DexieHandle)
  /-- Map `REF_COUNT_PER_DEXIE_DB`, keyed by the handle's identity. -/
  refCount : List (Nat × JsNum)
  /-- Number of `dexieDb.open()` calls issued so far; also the next fresh
  handle identity. -/
  openCalls : Nat
  /-- Identities of connections on which `dexieDb.close()` was called, in
  order. -/
  closedConns : List Nat
deriving DecidableEq, Repr

/-- The state at module load: both maps empty, no opens, no closes. -/
def initialRegistryState : RegistryState :=
  { stateDbByName := [], refCount := [], openCalls := 0, closedConns := [] }

/-- A `Map.get` lookup on an association list. -/
def mapGet {α β : Type} [DecidableEq α] (m : List (α × β)) (key : α) :
    Option β :=
  (m.find? (fun p => p.1 = key)).map (fun p => p.2)

/-- A `Map.set` update on an association list: an existing entry keeps its
position and gets the new value, a new key is appended at the end. -/
def mapSet {α β : Type} [DecidableEq α] :
    List (α × β) → α → β → List (α × β)
  | [], key, value => [(key, value)]
  | p :: rest, key, value =>
    if p.1 = key then (key, value) :: rest
    else p :: mapSet rest key value

/-- A `Map.delete` removal on an association list. -/
def mapDelete {α β : Type} [DecidableEq α] (m : List (α × β)) (key : α) :
    List (α × β) :=
  m.filter (fun p => ¬ p.1 = key)

/-- The dexie database name derived in `getDexieDbWithTables`:
`'rxdb-dexie-' + databaseName + '--' + collectionName`. -/
def dexieDbNameOf (databaseName collectionName : String) : String :=
  "rxdb-dexie-" ++ databaseName ++ "--" ++ collectionName

/-- Function `getDexieDbWithTables` of the source, as a state transition.  If the name
map has an entry it is returned unchanged.  Otherwise the async creation is
started — it issues exactly one physical `open()`, whose outcome the
environment supplies as `openResolves` — and the new state promise is
installed in `DEXIE_STATE_DB_BY_NAME` with reference count `0` before the
function returns (the source performs both `set` calls synchronously, before
the `await dexieDb.open()` suspension can be observed by any other caller).
Note the source never increments the reference count. -/
def getDexieDbWithTables (s : RegistryState)
    (databaseName collectionName : String) (openResolves : Bool) :
    DexieHandle × RegistryState :=
  let dexieDbName := dexieDbNameOf databaseName collectionName
  match mapGet s.stateDbByName dexieDbName with
  | some state => (state, s)
  | none =>
    let state : DexieHandle := { openId := s.openCalls, openOk := openResolves }
    (state,
      { stateDbByName := mapSet s.stateDbByName dexieDbName state,
        refCount := mapSet s.refCount state.openId (.num 0),
        openCalls := s.openCalls + 1,
        closedConns := s.closedConns })

/-- Function `closeDexieDb` of the source.  `await statePromise` rethrows the rejection
of a failed creation, modelled as `none`.  Otherwise the counter is read
(possibly `undefined`), decremented, and only an exact `0` closes the
connection and deletes the counter entry; every other value (negative or
`NaN`) is stored back.  `DEXIE_STATE_DB_BY_NAME` is never touched. -/
def closeDexieDb (s : RegistryState) (statePromise : DexieHandle) :
    Option RegistryState :=
  if statePromise.openOk then
    let prevCount := mapGet s.refCount statePromise.openId
    let newCount := jsSubOne prevCount
    if jsEqZero newCount then
      some { s with
        closedConns := s.closedConns ++ [statePromise.openId],
        refCount := mapDelete s.refCount statePromise.openId }
    else
      some { s with refCount := mapSet s.refCount statePromise.openId newCount }
  else
    none

/-! ## Settings handling inside `getDexieDbWithTables`

The claim about the caller's settings object is about aliasing, so this part
of the creation step is embedded with an explicit heap of settings objects:
references are heap addresses, `flatClone` (from `util.ts`, outside this
file; modelled from the spec: a shallow `{...obj}` copy into a fresh object)
allocates a fresh address holding a copy, and the `useSettings.autoOpen =
false` assignment updates the object at the clone's address. -/

/-- The `DexieSettings` object: the `autoOpen` flag this code overrides and an
opaque residue standing for every other configuration field. -/
structure DexieSettings where
  autoOpen : Bool
  otherFields : Nat
deriving DecidableEq, Repr

/-- Lines 39–41 of `getDexieDbWithTables`:
`const useSettings = flatClone(settings); useSettings.autoOpen = false;`,
on a heap `heap` with `fresh` the next unused address and `ref` the caller's
settings reference.  Returns the post-heap and the reference passed to the
`Dexie` constructor. -/
def prepareUseSettings (heap : Nat → DexieSettings) (fresh ref : Nat) :
    (Nat → DexieSettings) × Nat :=
  let heap1 := Function.update heap fresh (heap ref)
  let heap2 := Function.update heap1 fresh
    { heap1 fresh with autoOpen := false }
  (heap2, fresh)

/-! ## Document merger -/

/-- A stored document record: an opaque keyed payload plus the reserved
`$lastWriteAt` bookkeeping field (`none` when the field is absent, as on
records of the active table). -/
structure DexieDoc where
  payload : List (String × Int)
  lastWriteAt : Option Int
deriving DecidableEq, Repr

/-- Function `stripDexieKey` of the source: `flatClone` the record and `delete` its
`$lastWriteAt` field. -/
def stripDexieKey (docData : DexieDoc) : DexieDoc :=
  { payload := docData.payload, lastWriteAt := none }

/-- The two point-lookup tables of a resolved `DexieStorageInternals`: the
active (`docs`) table and the tombstone (`deleted-docs`) table, keyed by
primary key. -/
structure DexieTables where
  dexieTable : String → Option DexieDoc
  dexieDeletedTable : String → Option DexieDoc

/-- Dexie `Table.bulkGet(ids)`: one optional record per requested id, in order. -/
def bulkGet (table : String → Option DexieDoc) (docIds : List String) :
    List (Option DexieDoc) :=
  docIds.map table

/-- Function `getDocsInDb` of the source: bulk-get the ids from both tables, start
from a copy of the tombstone results (`deletedDocsInDb.slice(0)`) and let
every position where the active table produced a (truthy) record overwrite
the tombstone result at that position.  Both `bulkGet` results have one slot
per requested id, so the index-wise `forEach` overwrite is a `zipWith`. -/
def getDocsInDb (internals : DexieTables) (docIds : List String) :
    List (Option DexieDoc) :=
  let nonDeletedDocsInDb := bulkGet internals.dexieTable docIds
  let deletedDocsInDb := bulkGet internals.dexieDeletedTable docIds
  List.zipWith (fun doc deletedDoc => if doc.isSome then doc else deletedDoc)
    nonDeletedDocsInDb deletedDocsInDb

/-! ## Concrete sample inputs

Closed sample values used to instantiate the theorems below on concrete
inputs. -/

/-- A document whose every field is `0`; its primary-key field `"id"` agrees
with `docSamePrimaryB`. -/
def docSamePrimaryA : Doc := fun _ => 0

/-- A document that differs from `docSamePrimaryA` only at field `"x"`; the
two documents are distinct but tie on the primary-key field `"id"`. -/
def docSamePrimaryB : Doc := fun field => if field = "x" then 1 else 0

/-- A document whose every field is `0`. -/
def docDistinctPrimaryA : Doc := fun _ => 0

/-- A document whose primary-key field `"id"` is `1`, differing from
`docDistinctPrimaryA` there. -/
def docDistinctPrimaryB : Doc := fun field => if field = "id" then 1 else 0

/-- A tombstone-table record for id `"y"`, carrying the reserved
`$lastWriteAt` bookkeeping field. -/
def tombstoneOnlyDoc : DexieDoc := { payload := [("v", 3)], lastWriteAt := some 5 }

/-- Sample tables realizing the spec's merge scenario: id `"x"` is in both
tables (tombstone value `V1`, active value `V2`), id `"y"` only in the
tombstone table (value `V3`), id `"z"` in neither. -/
def mergeTablesSample : DexieTables where
  dexieTable := fun docId =>
    if docId = "x" then some { payload := [("v", 2)], lastWriteAt := none }
    else none
  dexieDeletedTable := fun docId =>
    if docId = "x" then some { payload := [("v", 1)], lastWriteAt := some 4 }
    else if docId = "y" then some tombstoneOnlyDoc
    else none

/-- The ordered id sequence of the merge scenario. -/
def mergeIdsSample : List String := ["x", "y", "z"]

/-- A sample settings heap: every address holds `autoOpen := true` with some
opaque residue. -/
def settingsHeapSample : Nat → DexieSettings :=
  fun _ => { autoOpen := true, otherFields := 7 }

/-! ## Helper lemmas -/

theorem renderDexiePart_singleton (x : String) : renderDexiePart [x] = x := rfl

theorem joinStrings_cons_ex (sep x : String) (xs : List String) :
    ∃ rest : String, joinStrings sep (x :: xs) = x ++ rest := by
  cases xs with
  | nil => exact ⟨"", by simp [joinStrings]⟩
  | cons y ys =>
    exact ⟨sep ++ joinStrings sep (y :: ys), by simp [joinStrings, String.append_assoc]⟩

/-! ## C6 — the identifier escaper -/

/-- C6: a field name whose first character is not the sentinel `'|'` is
returned unchanged by `dexieReplaceIfStartsWithPipe`; a name starting with
`'|'` is returned as the fixed substitute token followed by the rest of the
name unchanged; in particular `"|a.b"` maps to the substitute token
immediately followed by `"a.b"`. -/
theorem dexieReplaceIfStartsWithPipe_spec :
    (∀ str : String, str.data.head? ≠ some '|' →
      dexieReplaceIfStartsWithPipe str = str) ∧
    (∀ rest : List Char,
      dexieReplaceIfStartsWithPipe (String.mk ('|' :: rest)) =
        DEXIE_PIPE_SUBSTITUTE ++ String.mk rest) ∧
    dexieReplaceIfStartsWithPipe "|a.b" = DEXIE_PIPE_SUBSTITUTE ++ "a.b" := by
  refine ⟨?_, ?_, by decide⟩
  · intro str h
    unfold dexieReplaceIfStartsWithPipe
    rcases hd : str.data with _ | ⟨c, t⟩
    · rfl
    · have hc : ¬ c = '|' := by
        intro hc
        exact h (by rw [hd, hc]; rfl)
      show (if c = '|' then DEXIE_PIPE_SUBSTITUTE ++ String.mk t else str) = str
      rw [if_neg hc]
  · intro rest
    rfl

/-- Witness for C6 at the concrete inputs `"firstName"` and `"|a.b"`. -/
theorem dexieReplaceIfStartsWithPipe_spec_witness :
    dexieReplaceIfStartsWithPipe "firstName" = "firstName" ∧
    dexieReplaceIfStartsWithPipe (String.mk ('|' :: "a.b".data)) =
      DEXIE_PIPE_SUBSTITUTE ++ String.mk "a.b".data :=
  ⟨dexieReplaceIfStartsWithPipe_spec.1 "firstName" (by decide),
    dexieReplaceIfStartsWithPipe_spec.2.1 "a.b".data⟩

/-! ## C4 — the index-string compiler -/

/-- C4: the escaped primary-key field is always the first rendered group of
the store-schema string (with no user indexes the output is exactly the
escaped primary key), and for primary key `id` with indexes
`[["a"], ["b", "c"]]` the output is the exact literal `id, a, [b+c]`. -/
theorem getDexieStoreSchema_spec :
    (∀ schema : DexieSchema, ∃ rest : String,
      getDexieStoreSchema schema =
        dexieReplaceIfStartsWithPipe schema.primaryKey ++ rest) ∧
    (∀ primaryKey : String,
      getDexieStoreSchema { primaryKey := primaryKey, indexes := none } =
        dexieReplaceIfStartsWithPipe primaryKey) ∧
    getDexieStoreSchema
        { primaryKey := "id",
          indexes := some [.single "a", .compound ["b", "c"]] } =
      "id, a, [b+c]" := by
  refine ⟨?_, ?_, by decide⟩
  · intro schema
    simp only [getDexieStoreSchema, List.map_cons, List.map_nil,
      renderDexiePart_singleton]
    exact joinStrings_cons_ex ", " _ _
  · intro primaryKey
    simp [getDexieStoreSchema, renderDexiePart_singleton, joinStrings]

/-! ## C3 and C7 — the document merger -/

theorem getDocsInDb_length (internals : DexieTables) (docIds : List String) :
    (getDocsInDb internals docIds).length = docIds.length := by
  simp [getDocsInDb, bulkGet]

theorem getDocsInDb_get (internals : DexieTables) (docIds : List String)
    (i : Nat) (docId : String) (h : docIds.get? i = some docId) :
    (getDocsInDb internals docIds).get? i =
      some (match internals.dexieTable docId with
        | some doc => some doc
        | none => internals.dexieDeletedTable docId) := by
  have hzip : getDocsInDb internals docIds =
      docIds.map (fun docId =>
        if (internals.dexieTable docId).isSome then internals.dexieTable docId
        else internals.dexieDeletedTable docId) := by
    simp [getDocsInDb, bulkGet, List.zipWith_map, List.zipWith_same]
  rw [hzip, List.get?_map, h]
  cases hdoc : internals.dexieTable docId <;> simp [hdoc]

/-- C3: `getDocsInDb` returns one optional record per requested id, in the
order of the ids; a position held by both tables produces the active-table
record, a position held only by the tombstone table produces the tombstone
record, a position held by neither is `none` (an absent slot, not a
failure). -/
theorem getDocsInDb_merge_spec (internals : DexieTables) (docIds : List String)
    (i : Nat) (docId : String) (h : docIds.get? i = some docId) :
    (getDocsInDb internals docIds).length = docIds.length ∧
    (getDocsInDb internals docIds).get? i =
      some (match internals.dexieTable docId with
        | some doc => some doc
        | none => internals.dexieDeletedTable docId) :=
  ⟨getDocsInDb_length internals docIds, getDocsInDb_get internals docIds i docId h⟩

/-- Witness for C3 at the spec's merge scenario (id `"x"` in both tables). -/
theorem getDocsInDb_merge_spec_witness :
    mergeIdsSample.get? 0 = some "x" ∧
    ((getDocsInDb mergeTablesSample mergeIdsSample).length =
        mergeIdsSample.length ∧
      (getDocsInDb mergeTablesSample mergeIdsSample).get? 0 =
        some (match mergeTablesSample.dexieTable "x" with
          | some doc => some doc
          | none => mergeTablesSample.dexieDeletedTable "x")) :=
  ⟨by decide,
    getDocsInDb_merge_spec mergeTablesSample mergeIdsSample 0 "x" (by decide)⟩

/-- C7 counterexample: `getDocsInDb` hands a tombstone-table record back with
its reserved `$lastWriteAt` field still present — `stripDexieKey` is never
applied inside `getDocsInDb`. -/
theorem getDocsInDb_keeps_lastWriteAt_cex :
    (getDocsInDb mergeTablesSample ["y"]).get? 0 = some (some tombstoneOnlyDoc) ∧
    tombstoneOnlyDoc.lastWriteAt ≠ none := by
  exact ⟨by decide, by decide⟩

/-- C7 (amended): `stripDexieKey` removes the reserved `$lastWriteAt` field
and keeps the payload, but `getDocsInDb` does not apply it: every returned
slot is exactly the stored record of the winning table, so tombstone-sourced
records keep their `$lastWriteAt` field. -/
theorem stripDexieKey_not_applied_by_getDocsInDb :
    (∀ docData : DexieDoc, (stripDexieKey docData).lastWriteAt = none ∧
      (stripDexieKey docData).payload = docData.payload) ∧
    (∀ (internals : DexieTables) (docIds : List String) (i : Nat)
      (docId : String), docIds.get? i = some docId →
      (getDocsInDb internals docIds).get? i =
        some (match internals.dexieTable docId with
          | some doc => some doc
          | none => internals.dexieDeletedTable docId)) :=
  ⟨fun _ => ⟨rfl, rfl⟩,
    fun internals docIds i docId h => getDocsInDb_get internals docIds i docId h⟩

/-- Witness for the amended C7 at the tombstone-only id `"y"`. -/
theorem stripDexieKey_not_applied_witness :
    (["y"] : List String).get? 0 = some "y" ∧
    (getDocsInDb mergeTablesSample ["y"]).get? 0 =
      some (match mergeTablesSample.dexieTable "y" with
        | some doc => some doc
        | none => mergeTablesSample.dexieDeletedTable "y") :=
  ⟨by decide,
    stripDexieKey_not_applied_by_getDocsInDb.2 mergeTablesSample ["y"] 0 "y"
      (by decide)⟩

/-! ## Registry helper lemmas -/

theorem mapGet_mapSet_self {α β : Type} [DecidableEq α] (m : List (α × β))
    (key : α) (value : β) : mapGet (mapSet m key value) key = some value := by
  induction m with
  | nil => simp [mapGet, mapSet, List.find?]
  | cons p rest ih =>
    by_cases hp : p.1 = key
    · simp [mapGet, mapSet, hp, List.find?]
    · simp only [mapSet, if_neg hp]
      simpa [mapGet, List.find?, hp] using ih

theorem getDexieDbWithTables_hit (s : RegistryState)
    (databaseName collectionName : String) (h : DexieHandle) (openResolves : Bool)
    (hh : mapGet s.stateDbByName (dexieDbNameOf databaseName collectionName) =
      some h) :
    getDexieDbWithTables s databaseName collectionName openResolves = (h, s) := by
  unfold getDexieDbWithTables
  simp only [hh]

theorem getDexieDbWithTables_miss (s : RegistryState)
    (databaseName collectionName : String) (openResolves : Bool)
    (hh : mapGet s.stateDbByName (dexieDbNameOf databaseName collectionName) =
      none) :
    getDexieDbWithTables s databaseName collectionName openResolves =
      ({ openId := s.openCalls, openOk := openResolves },
        { stateDbByName := mapSet s.stateDbByName
            (dexieDbNameOf databaseName collectionName)
            { openId := s.openCalls, openOk := openResolves },
          refCount := mapSet s.refCount s.openCalls (.num 0),
          openCalls := s.openCalls + 1,
          closedConns := s.closedConns }) := by
  unfold getDexieDbWithTables
  simp only [hh]

/-! ## C9 — memoized lazy creation -/

/-- C9: an acquire that finds an entry for the logical name returns that
exact handle with the state untouched (in particular, no physical open); a
first acquire installs the returned (possibly still pending) handle in the
registry and issues exactly one physical open, and a later acquire for the
same name then returns that very handle without a second open, regardless of
what a second open would have produced. -/
theorem getDexieDbWithTables_memoized (s : RegistryState)
    (databaseName collectionName : String) (ok ok2 : Bool) :
    (∀ h : DexieHandle,
      mapGet s.stateDbByName (dexieDbNameOf databaseName collectionName) =
        some h →
      getDexieDbWithTables s databaseName collectionName ok = (h, s)) ∧
    (mapGet s.stateDbByName (dexieDbNameOf databaseName collectionName) =
        none →
      mapGet (getDexieDbWithTables s databaseName collectionName ok).2.stateDbByName
          (dexieDbNameOf databaseName collectionName) =
        some (getDexieDbWithTables s databaseName collectionName ok).1 ∧
      (getDexieDbWithTables s databaseName collectionName ok).2.openCalls =
        s.openCalls + 1 ∧
      getDexieDbWithTables
          (getDexieDbWithTables s databaseName collectionName ok).2
          databaseName collectionName ok2 =
        ((getDexieDbWithTables s databaseName collectionName ok).1,
          (getDexieDbWithTables s databaseName collectionName ok).2)) := by
  constructor
  · intro h hh
    exact getDexieDbWithTables_hit s databaseName collectionName h ok hh
  · intro hh
    rw [getDexieDbWithTables_miss s databaseName collectionName ok hh]
    refine ⟨mapGet_mapSet_self _ _ _, rfl, ?_⟩
    exact getDexieDbWithTables_hit _ databaseName collectionName _ ok2
      (mapGet_mapSet_self _ _ _)

/-- Witness for C9: a fresh acquire on the empty registry installs the
handle and opens once; a second acquire (with an environment that would fail
a new open) returns the same handle and same state; the hit case is also
exercised at the post-acquire state. -/
theorem getDexieDbWithTables_memoized_witness :
    mapGet initialRegistryState.stateDbByName (dexieDbNameOf "db" "col") =
      none ∧
    (mapGet (getDexieDbWithTables initialRegistryState "db" "col" true).2.stateDbByName
        (dexieDbNameOf "db" "col") =
      some (getDexieDbWithTables initialRegistryState "db" "col" true).1 ∧
    (getDexieDbWithTables initialRegistryState "db" "col" true).2.openCalls =
      initialRegistryState.openCalls + 1 ∧
    getDexieDbWithTables
        (getDexieDbWithTables initialRegistryState "db" "col" true).2
        "db" "col" false =
      ((getDexieDbWithTables initialRegistryState "db" "col" true).1,
        (getDexieDbWithTables initialRegistryState "db" "col" true).2)) :=
  ⟨by decide,
    (getDexieDbWithTables_memoized initialRegistryState "db" "col" true false).2
      (by decide)⟩

/-! ## C2 — reference-count lifecycle (code bug) -/

/-- C2 (evaluation at the failing input, N = 1): after one acquire the
reference count is `0` because `getDexieDbWithTables` never increments it;
the first `closeDexieDb` therefore computes `0 - 1 = -1`, which is not `0`,
so the connection is not closed (`closedConns` stays empty), the name-map
entry is not removed, and the counter is left at `-1` — contradicting the
claim that the Nth release closes the connection and removes the entry. -/
theorem closeDexieDb_never_closes_eval :
    closeDexieDb (getDexieDbWithTables initialRegistryState "db" "col" true).2
        (getDexieDbWithTables initialRegistryState "db" "col" true).1 =
      some { stateDbByName :=
              [(dexieDbNameOf "db" "col", { openId := 0, openOk := true })],
             refCount := [(0, JsNum.num (-1))],
             openCalls := 1,
             closedConns := [] } := by
  decide

/-! ## C5 — failed open leaves a stale entry (corrected) -/

/-- C5 counterexample: after a first acquire whose physical open fails, a
second acquire for the same logical name returns the very same failed handle
and issues no fresh open (`openCalls` stays `1`), even though the
environment would now let an open succeed — the failed entry is never
evicted. -/
theorem getDexieDbWithTables_stale_failed_entry_cex :
    (getDexieDbWithTables
        (getDexieDbWithTables initialRegistryState "db" "col" false).2
        "db" "col" true).1 = { openId := 0, openOk := false } ∧
    (getDexieDbWithTables
        (getDexieDbWithTables initialRegistryState "db" "col" false).2
        "db" "col" true).2.openCalls = 1 := by
  decide

/-- C5 (amended): when the physical open of a creation fails, the rejected
handle stays installed in the registry; every subsequent acquire for the
same logical name returns that same failed handle without attempting a fresh
open, and the failure is surfaced to a waiter that awaits the handle
(`closeDexieDb` rethrows the rejection). -/
theorem getDexieDbWithTables_failed_open_not_evicted (s : RegistryState)
    (databaseName collectionName : String) (ok2 : Bool)
    (hh : mapGet s.stateDbByName (dexieDbNameOf databaseName collectionName) =
      none) :
    (getDexieDbWithTables s databaseName collectionName false).1.openOk =
      false ∧
    mapGet (getDexieDbWithTables s databaseName collectionName false).2.stateDbByName
        (dexieDbNameOf databaseName collectionName) =
      some (getDexieDbWithTables s databaseName collectionName false).1 ∧
    getDexieDbWithTables
        (getDexieDbWithTables s databaseName collectionName false).2
        databaseName collectionName ok2 =
      ((getDexieDbWithTables s databaseName collectionName false).1,
        (getDexieDbWithTables s databaseName collectionName false).2) ∧
    closeDexieDb (getDexieDbWithTables s databaseName collectionName false).2
        (getDexieDbWithTables s databaseName collectionName false).1 = none := by
  rw [getDexieDbWithTables_miss s databaseName collectionName false hh]
  refine ⟨rfl, mapGet_mapSet_self _ _ _, ?_, ?_⟩
  · exact getDexieDbWithTables_hit _ databaseName collectionName _ ok2
      (mapGet_mapSet_self _ _ _)
  · rfl

/-- Witness for the amended C5 at the empty registry. -/
theorem getDexieDbWithTables_failed_open_witness :
    mapGet initialRegistryState.stateDbByName (dexieDbNameOf "db" "col") =
      none ∧
    ((getDexieDbWithTables initialRegistryState "db" "col" false).1.openOk =
      false ∧
    mapGet (getDexieDbWithTables initialRegistryState "db" "col" false).2.stateDbByName
        (dexieDbNameOf "db" "col") =
      some (getDexieDbWithTables initialRegistryState "db" "col" false).1 ∧
    getDexieDbWithTables
        (getDexieDbWithTables initialRegistryState "db" "col" false).2
        "db" "col" true =
      ((getDexieDbWithTables initialRegistryState "db" "col" false).1,
        (getDexieDbWithTables initialRegistryState "db" "col" false).2) ∧
    closeDexieDb (getDexieDbWithTables initialRegistryState "db" "col" false).2
        (getDexieDbWithTables initialRegistryState "db" "col" false).1 =
      none) :=
  ⟨by decide,
    getDexieDbWithTables_failed_open_not_evicted initialRegistryState
      "db" "col" true (by decide)⟩

/-! ## C8 — misuse of release is silent (corrected) -/

/-- C8 counterexample: releasing a handle that is not tracked by the counter
map does not raise any error: `undefined - 1` is `NaN`, `NaN === 0` is
`false`, so the call returns normally after storing `NaN` as the count — it
is silently accepted, nothing is closed and no programming-error condition is
reported. -/
theorem closeDexieDb_untracked_silent_cex :
    closeDexieDb initialRegistryState { openId := 7, openOk := true } =
      some { stateDbByName := [], refCount := [(7, JsNum.nan)],
             openCalls := 0, closedConns := [] } := by
  decide

/-- C8 (amended): release on an untracked handle silently stores `NaN` as
its count, and release past zero silently stores the decremented negative
count; in both cases the call completes without reporting any error and
without closing a connection. -/
theorem closeDexieDb_misuse_silent (s : RegistryState)
    (statePromise : DexieHandle) (hok : statePromise.openOk = true) :
    (mapGet s.refCount statePromise.openId = none →
      closeDexieDb s statePromise =
        some { s with
          refCount := mapSet s.refCount statePromise.openId JsNum.nan }) ∧
    (∀ n : Int, n ≤ 0 →
      mapGet s.refCount statePromise.openId = some (JsNum.num n) →
      closeDexieDb s statePromise =
        some { s with
          refCount := mapSet s.refCount statePromise.openId
            (JsNum.num (n - 1)) }) := by
  constructor
  · intro hmiss
    simp [closeDexieDb, hok, hmiss, jsSubOne, jsEqZero]
  · intro n hn htrack
    have hne : ¬ (n - 1 = 0) := by omega
    simp [closeDexieDb, hok, htrack, jsSubOne, jsEqZero, hne]

/-- Witness for the amended C8: untracked release at the empty registry. -/
theorem closeDexieDb_misuse_silent_witness :
    closeDexieDb initialRegistryState { openId := 7, openOk := true } =
      some { initialRegistryState with
        refCount := mapSet initialRegistryState.refCount 7 JsNum.nan } :=
  (closeDexieDb_misuse_silent initialRegistryState
      { openId := 7, openOk := true } rfl).1 (by decide)

/-! ## C10 — the caller's settings object is not mutated -/

/-- C10: the `autoOpen := false` override of `getDexieDbWithTables` is
applied to the freshly allocated shallow clone only: the settings object at
the caller's reference is unchanged by the call, while the object actually
handed to the `Dexie` constructor has `autoOpen = false` and the caller's
other fields. -/
theorem prepareUseSettings_frame (heap : Nat → DexieSettings) (fresh ref : Nat)
    (h : ref ≠ fresh) :
    (prepareUseSettings heap fresh ref).1 ref = heap ref ∧
    (prepareUseSettings heap fresh ref).1 (prepareUseSettings heap fresh ref).2 =
      { heap ref with autoOpen := false } := by
  constructor
  · simp [prepareUseSettings, Function.update_noteq h]
  · simp [prepareUseSettings]

/-- Witness for C10 on a concrete heap with `autoOpen = true` everywhere. -/
theorem prepareUseSettings_frame_witness :
    (0 : Nat) ≠ 1 ∧
    ((prepareUseSettings settingsHeapSample 1 0).1 0 = settingsHeapSample 0 ∧
      (prepareUseSettings settingsHeapSample 1 0).1
          (prepareUseSettings settingsHeapSample 1 0).2 =
        { settingsHeapSample 0 with autoOpen := false }) :=
  ⟨by decide, prepareUseSettings_frame settingsHeapSample 1 0 (by decide)⟩

/-! ## Comparator helper lemmas -/

theorem ordering_swap_eq_lt (o : Ordering) : o.swap = .lt ↔ o = .gt := by
  cases o <;> decide

theorem ordering_swap_eq_eq (o : Ordering) : o.swap = .eq ↔ o = .eq := by
  cases o <;> decide

theorem mingoValueCompare_lt_iff (x y : Int) :
    mingoValueCompare x y = .lt ↔ x < y := by
  unfold mingoValueCompare
  split_ifs with h1 h2 <;> simp <;> omega

theorem mingoValueCompare_eq_iff (x y : Int) :
    mingoValueCompare x y = .eq ↔ x = y := by
  unfold mingoValueCompare
  split_ifs with h1 h2 <;> simp <;> omega

theorem mingoValueCompare_gt_iff (x y : Int) :
    mingoValueCompare x y = .gt ↔ y < x := by
  unfold mingoValueCompare
  split_ifs with h1 h2 <;> simp <;> omega

theorem mingoValueCompare_swap (x y : Int) :
    mingoValueCompare y x = (mingoValueCompare x y).swap := by
  unfold mingoValueCompare
  split_ifs <;> first | rfl | (exfalso; omega)

theorem mingoKeyCompare_swap (dir x y : Int) :
    mingoKeyCompare dir y x = (mingoKeyCompare dir x y).swap := by
  unfold mingoKeyCompare
  by_cases hdir : dir = -1
  · rw [if_pos hdir, if_pos hdir, mingoValueCompare_swap x y]
  · rw [if_neg hdir, if_neg hdir, mingoValueCompare_swap x y]

theorem mingoKeyCompare_eq_iff (dir x y : Int) :
    mingoKeyCompare dir x y = .eq ↔ x = y := by
  unfold mingoKeyCompare
  by_cases hdir : dir = -1
  · rw [if_pos hdir, ordering_swap_eq_eq, mingoValueCompare_eq_iff]
  · rw [if_neg hdir, mingoValueCompare_eq_iff]

theorem mingoKeyCompare_lt_iff_desc {dir : Int} (hdir : dir = -1) (x y : Int) :
    mingoKeyCompare dir x y = .lt ↔ y < x := by
  unfold mingoKeyCompare
  rw [if_pos hdir, ordering_swap_eq_lt, mingoValueCompare_gt_iff]

theorem mingoKeyCompare_lt_iff_asc {dir : Int} (hdir : ¬ dir = -1) (x y : Int) :
    mingoKeyCompare dir x y = .lt ↔ x < y := by
  unfold mingoKeyCompare
  rw [if_neg hdir, mingoValueCompare_lt_iff]

theorem mingoKeyCompare_lt_trans (dir : Int) {x y z : Int}
    (h1 : mingoKeyCompare dir x y = .lt) (h2 : mingoKeyCompare dir y z = .lt) :
    mingoKeyCompare dir x z = .lt := by
  by_cases hdir : dir = -1
  · rw [mingoKeyCompare_lt_iff_desc hdir] at h1 h2 ⊢
    omega
  · rw [mingoKeyCompare_lt_iff_asc hdir] at h1 h2 ⊢
    omega

theorem mingoLexCompare_swap (L : List (String × Int)) (a b : Doc) :
    mingoLexCompare L b a = (mingoLexCompare L a b).swap := by
  induction L with
  | nil => rfl
  | cons kd rest ih =>
    obtain ⟨key, dir⟩ := kd
    simp only [mingoLexCompare]
    rw [mingoKeyCompare_swap dir (a key) (b key)]
    cases hk : mingoKeyCompare dir (a key) (b key) with
    | lt => rfl
    | eq => simpa using ih
    | gt => rfl

theorem mingoLexCompare_eq_imp (L : List (String × Int)) (a b : Doc)
    (h : mingoLexCompare L a b = .eq) : ∀ kd ∈ L, a kd.1 = b kd.1 := by
  induction L with
  | nil => intro kd hkd; cases hkd
  | cons kd0 rest ih =>
    obtain ⟨key, dir⟩ := kd0
    intro kd hkd
    simp only [mingoLexCompare] at h
    cases hk : mingoKeyCompare dir (a key) (b key) <;> simp [hk] at h
    rcases List.mem_cons.mp hkd with rfl | hmem
    · exact (mingoKeyCompare_eq_iff dir (a key) (b key)).mp hk
    · exact ih h kd hmem

theorem mingoLexCompare_le_trans (L : List (String × Int)) (a b c : Doc)
    (hab : mingoLexCompare L a b ≠ .gt) (hbc : mingoLexCompare L b c ≠ .gt) :
    mingoLexCompare L a c ≠ .gt := by
  induction L with
  | nil => simp [mingoLexCompare]
  | cons kd rest ih =>
    obtain ⟨key, dir⟩ := kd
    simp only [mingoLexCompare] at hab hbc ⊢
    cases hk1 : mingoKeyCompare dir (a key) (b key) with
    | gt => simp [hk1] at hab
    | lt =>
      cases hk2 : mingoKeyCompare dir (b key) (c key) with
      | gt => simp [hk2] at hbc
      | lt =>
        have hac := mingoKeyCompare_lt_trans dir hk1 hk2
        simp [hac]
      | eq =>
        have hbceq : b key = c key :=
          (mingoKeyCompare_eq_iff dir (b key) (c key)).mp hk2
        have hac : mingoKeyCompare dir (a key) (c key) = .lt := by
          rw [← hbceq]; exact hk1
        simp [hac]
    | eq =>
      have habeq : a key = b key :=
        (mingoKeyCompare_eq_iff dir (a key) (b key)).mp hk1
      cases hk2 : mingoKeyCompare dir (b key) (c key) with
      | gt => simp [hk2] at hbc
      | lt =>
        have hac : mingoKeyCompare dir (a key) (c key) = .lt := by
          rw [habeq]; exact hk2
        simp [hac]
      | eq =>
        have hac : mingoKeyCompare dir (a key) (c key) = .eq := by
          rw [habeq]; exact hk2
        simp only [hk1] at hab
        simp only [hk2] at hbc
        simp only [hac]
        exact ih hab hbc

theorem jsObjectSet_mem_keys_self (obj : List (String × Int)) (key : String)
    (value : Int) : key ∈ (jsObjectSet obj key value).map Prod.fst := by
  induction obj with
  | nil => simp [jsObjectSet]
  | cons p rest ih =>
    by_cases hp : p.1 = key
    · simp [jsObjectSet, hp]
    · simp only [jsObjectSet, if_neg hp, List.map_cons, List.mem_cons]
      exact Or.inr ih

theorem jsObjectSet_mem_keys_mono (obj : List (String × Int))
    (key key' : String) (value : Int) (h : key ∈ obj.map Prod.fst) :
    key ∈ (jsObjectSet obj key' value).map Prod.fst := by
  induction obj with
  | nil => simp at h
  | cons p rest ih =>
    simp only [List.map_cons, List.mem_cons] at h
    by_cases hp : p.1 = key'
    · simp only [jsObjectSet, if_pos hp, List.map_cons, List.mem_cons]
      rcases h with h | h
      · exact Or.inl (by rw [h, hp])
      · exact Or.inr h
    · simp only [jsObjectSet, if_neg hp, List.map_cons, List.mem_cons]
      rcases h with h | h
      · exact Or.inl h
      · exact Or.inr (ih h)

theorem foldl_sortBlocks_mem_keys (sort : List SortBlock) (key : String) :
    ∀ obj : List (String × Int),
    (key ∈ obj.map Prod.fst ∨ ∃ sb ∈ sort, sb.1 = key) →
    key ∈ (sort.foldl (fun obj sb =>
      jsObjectSet obj sb.1 (sortDirectionToMingo sb.2)) obj).map Prod.fst := by
  induction sort with
  | nil =>
    intro obj h
    rcases h with h | ⟨sb, hsb, _⟩
    · exact h
    · cases hsb
  | cons sb0 rest ih =>
    intro obj h
    simp only [List.foldl_cons]
    apply ih
    rcases h with h | ⟨sb, hsb, hk⟩
    · exact Or.inl (jsObjectSet_mem_keys_mono obj key sb0.1 _ h)
    · rcases List.mem_cons.mp hsb with rfl | hmem
      · refine Or.inl ?_
        rw [← hk]
        exact jsObjectSet_mem_keys_self obj sb.1 (sortDirectionToMingo sb.2)
      · exact Or.inr ⟨sb, hmem, hk⟩

theorem mingoSortObject_primary_mem (primaryKey : String)
    (sort : Option (List SortBlock)) :
    primaryKey ∈ (mingoSortObject primaryKey sort).map Prod.fst := by
  unfold mingoSortObject
  cases hws : wasPrimaryInSort primaryKey (sort.getD [])
  · simp only [hws, Bool.false_eq_true, if_false]
    exact jsObjectSet_mem_keys_self _ primaryKey 1
  · simp only [hws, if_true]
    have hex : ∃ sb ∈ sort.getD [], sb.1 = primaryKey := by
      simpa [wasPrimaryInSort, List.any_eq_true] using hws
    exact foldl_sortBlocks_mem_keys (sort.getD []) primaryKey [] (Or.inr hex)

theorem getDexieSortComparator_neg_one_iff (primaryKey : String)
    (sort : Option (List SortBlock)) (a b : Doc) :
    getDexieSortComparator primaryKey sort a b = -1 ↔
      mingoLexCompare (mingoSortObject primaryKey sort) a b ≠ .gt := by
  unfold getDexieSortComparator
  cases h : mingoLexCompare (mingoSortObject primaryKey sort) a b <;> simp

/-! ## C1 — the sort comparator -/

/-- C1 counterexample: two distinct documents that agree on the primary-key
field `"id"` (they differ only at field `"x"`, which no sort clause and no
tie-break compares) both compare "less" against each other under the stable
two-element sort, so for this pair of distinct documents it is not the case
that exactly one of `less(a,b)` / `less(b,a)` holds. -/
theorem getDexieSortComparator_both_less_cex :
    docSamePrimaryA ≠ docSamePrimaryB ∧
    getDexieSortComparator "id" none docSamePrimaryA docSamePrimaryB = -1 ∧
    getDexieSortComparator "id" none docSamePrimaryB docSamePrimaryA = -1 := by
  refine ⟨fun h => ?_, by decide, by decide⟩
  have hx := congrFun h "x"
  simp [docSamePrimaryA, docSamePrimaryB] at hx

/-- C1 (amended): for documents that differ in the value of the primary-key
field, exactly one of `less(a,b)` / `less(b,a)` holds (the appended
ascending primary-key tie-break decides every such pair); the comparator
never returns an "equal" result (it is always `-1` or `1`); and the induced
"less" relation is transitive across any three documents.  (For distinct
documents that agree on the primary-key field the exactly-one property fails,
see the counterexample.) -/
theorem getDexieSortComparator_strict_total (primaryKey : String)
    (sort : Option (List SortBlock)) :
    (∀ a b : Doc, a primaryKey ≠ b primaryKey →
      (getDexieSortComparator primaryKey sort a b = -1 ↔
        ¬ getDexieSortComparator primaryKey sort b a = -1)) ∧
    (∀ a b : Doc, getDexieSortComparator primaryKey sort a b = -1 ∨
      getDexieSortComparator primaryKey sort a b = 1) ∧
    (∀ a b c : Doc, getDexieSortComparator primaryKey sort a b = -1 →
      getDexieSortComparator primaryKey sort b c = -1 →
      getDexieSortComparator primaryKey sort a c = -1) := by
  refine ⟨?_, ?_, ?_⟩
  · intro a b hpk
    rw [getDexieSortComparator_neg_one_iff, getDexieSortComparator_neg_one_iff,
      mingoLexCompare_swap (mingoSortObject primaryKey sort) a b]
    have hne : mingoLexCompare (mingoSortObject primaryKey sort) a b ≠ .eq := by
      intro he
      obtain ⟨kd, hkd, hfst⟩ :=
        List.mem_map.mp (mingoSortObject_primary_mem primaryKey sort)
      have hval := mingoLexCompare_eq_imp _ a b he kd hkd
      rw [hfst] at hval
      exact hpk hval
    cases hlex : mingoLexCompare (mingoSortObject primaryKey sort) a b with
    | lt => decide
    | eq => exact absurd hlex hne
    | gt => decide
  · intro a b
    unfold getDexieSortComparator
    cases mingoLexCompare (mingoSortObject primaryKey sort) a b <;> simp
  · intro a b c h1 h2
    rw [getDexieSortComparator_neg_one_iff] at h1 h2 ⊢
    exact mingoLexCompare_le_trans _ a b c h1 h2

/-- Witness for the amended C1 at two documents with distinct primary-key
values and the empty sort clause. -/
theorem getDexieSortComparator_strict_total_witness :
    docDistinctPrimaryA "id" ≠ docDistinctPrimaryB "id" ∧
    (getDexieSortComparator "id" none docDistinctPrimaryA docDistinctPrimaryB =
        -1 ↔
      ¬ getDexieSortComparator "id" none docDistinctPrimaryB
          docDistinctPrimaryA = -1) :=
  ⟨by decide,
    (getDexieSortComparator_strict_total "id" none).1 docDistinctPrimaryA
      docDistinctPrimaryB (by decide)⟩

end DexieHelper
